import Mathlib

/-!
Shallow embedding of the core pipeline of `src/script_2.py`:
fetching paginated book records per keyword, parsing them into normalized
entries, per-keyword and global deduplication by `(title, year)`, and
bucketing by configured time periods.

Machine-level conventions of the embedding:
* A JSON field value that matters to the code is either an integer or a
  string (`JValue`); `book.get(field, default)` becomes `Option.getD`.
* The `while True` pagination loop of `fetch_books` is embedded with an
  explicit fuel parameter; the loop body is translated branch by branch.
  The embedding additionally returns the number of fetch calls issued,
  which the Python loop performs implicitly (one HTTP request per
  iteration).
* Python's mutable `seen` set in `remove_duplicates` becomes an explicit
  accumulator list threaded through the recursion.
* The dict `{period: 0 for period in TIME_PERIODS}` of
  `count_books_by_period` becomes an association list in period order,
  updated functionally.
-/

/-- A JSON scalar as the code distinguishes it: `isinstance(x, int)` vs
anything else (the only non-int values the code ever supplies or meets
here are strings such as the `'N/A'` default). -/
inductive JValue where
  | jint (n : Int)
  | jstr (s : String)
deriving DecidableEq, Repr

/-- One raw document of the API response's `docs` array, restricted to the
two fields the parser reads.  `none` models an absent key. -/
structure RawRecord where
  title : Option String
  first_publish_year : Option JValue
deriving DecidableEq, Repr

/-- A normalized entry `[title, first_publish_year, keyword]` as built by
`parse_book_titles_and_dates` (which only ever appends entries whose year
is an `int`). -/
structure Entry where
  title : String
  year : Int
  keyword : String
deriving DecidableEq, Repr

/-- The `identifier = (title, year)` used by `remove_duplicates`. -/
def dedupKey (e : Entry) : String × Int :=
  (e.title, e.year)

/-- The `TIME_PERIODS` constant of the script. -/
def TIME_PERIODS : List (Int × Int) :=
  [(2002, 2003), (2004, 2005), (2006, 2007),
   (2008, 2009), (2010, 2011), (2012, 2013), (2014, 2015),
   (2016, 2017), (2018, 2019), (2020, 2021), (2022, 2023)]

/-- Outcome of one `requests.get` + `.json()` round trip as the loop body
of `fetch_books` observes it: either a successful response whose `docs`
array is `docs` (a response lacking the `docs` key behaves exactly like
`docs = []`, both break the loop before extending), or a raised
`requests.RequestException`, which the `except` arm turns into `break`. -/
inductive PageResult where
  | ok (docs : List RawRecord)
  | err
deriving Repr

/-- The pagination loop of `fetch_books`, starting at page `page`, with
`fetcher` standing for the network capability `page ↦ response`.  Returns
the accumulated `all_books` together with the number of fetch calls
issued.  `fuel` bounds the number of iterations (the Python loop is
`while True`); every theorem below either supplies enough fuel or
hypothesises it. -/
def fetch_books_from (fetcher : Nat → PageResult) : Nat → Nat → List RawRecord × Nat
  | 0, _ => ([], 0)
  | fuel + 1, page =>
    match fetcher page with
    | PageResult.err => ([], 1)
    | PageResult.ok docs =>
      if docs.isEmpty then ([], 1)
      else if docs.length < 1000 then (docs, 1)
      else
        let rest := fetch_books_from fetcher fuel (page + 1)
        (docs ++ rest.1, rest.2 + 1)

/-- `fetch_books`: the loop starts at `params['page'] = 1`. -/
def fetch_books (fetcher : Nat → PageResult) (fuel : Nat) : List RawRecord × Nat :=
  fetch_books_from fetcher fuel 1

/-- `parse_book_titles_and_dates`: `title = book.get('title', 'N/A')`,
`first_publish_year = book.get('first_publish_year', 'N/A')`, and the
entry is appended only under `isinstance(first_publish_year, int)`. -/
def parse_book_titles_and_dates : List RawRecord → String → List Entry
  | [], _ => []
  | book :: rest, keyword =>
    let title := book.title.getD "N/A"
    match book.first_publish_year.getD (JValue.jstr "N/A") with
    | JValue.jint n =>
        { title := title, year := n, keyword := keyword } ::
          parse_book_titles_and_dates rest keyword
    | JValue.jstr _ => parse_book_titles_and_dates rest keyword

/-- Does `isinstance(book.get('first_publish_year', 'N/A'), int)` hold? -/
def hasIntYear (book : RawRecord) : Bool :=
  match book.first_publish_year.getD (JValue.jstr "N/A") with
  | JValue.jint _ => true
  | JValue.jstr _ => false

/-- The integer year of a record that passes `hasIntYear` (0 otherwise;
only ever applied under `hasIntYear`). -/
def intYearOf (book : RawRecord) : Int :=
  match book.first_publish_year.getD (JValue.jstr "N/A") with
  | JValue.jint n => n
  | JValue.jstr _ => 0

/-- The entry `parse_book_titles_and_dates` builds from one record. -/
def entryOf (keyword : String) (book : RawRecord) : Entry :=
  { title := book.title.getD "N/A", year := intYearOf book, keyword := keyword }

/-- The loop of `remove_duplicates` with the mutable `seen` set made an
explicit accumulator. -/
def remove_duplicates_from (seen : List (String × Int)) : List Entry → List Entry
  | [] => []
  | book :: rest =>
    if dedupKey book ∈ seen then
      remove_duplicates_from seen rest
    else
      book :: remove_duplicates_from (dedupKey book :: seen) rest

/-- `remove_duplicates`: `seen` starts empty. -/
def remove_duplicates (books : List Entry) : List Entry :=
  remove_duplicates_from [] books

/-- The inner `for start, end in TIME_PERIODS` scan with its `break`:
the first period (in list order) whose closed interval contains `year`. -/
def find_period (year : Int) : List (Int × Int) → Option (Int × Int)
  | [] => none
  | (s, e) :: rest =>
    if s ≤ year ∧ year ≤ e then some (s, e) else find_period year rest

/-- `period_counts[(start, end)] += 1` on an association list. -/
def bump_period (p : Int × Int) (counts : List ((Int × Int) × Nat)) :
    List ((Int × Int) × Nat) :=
  counts.map (fun pc => if pc.1 = p then (pc.1, pc.2 + 1) else pc)

/-- `count_books_by_period` generalized over the period table (the script
fixes it to `TIME_PERIODS`; the spec's configuration surface makes the
partition configurable). -/
def count_books_by_period_with (periods : List (Int × Int))
    (parsed_books : List Entry) : List ((Int × Int) × Nat) :=
  parsed_books.foldl
    (fun counts book =>
      match find_period book.year periods with
      | some p => bump_period p counts
      | none => counts)
    (periods.map (fun p => (p, 0)))

/-- `count_books_by_period` exactly as in the script. -/
def count_books_by_period (parsed_books : List Entry) :
    List ((Int × Int) × Nat) :=
  count_books_by_period_with TIME_PERIODS parsed_books

/-- Total of all period counts. -/
def sumCounts (counts : List ((Int × Int) × Nat)) : Nat :=
  (counts.map (fun pc => pc.2)).sum

/-- `process_keyword`: fetch, then (under `if books_data:`) parse and
deduplicate; an empty fetch yields `[]`. -/
def process_keyword (fetcher : Nat → PageResult) (fuel : Nat)
    (keyword : String) : List Entry :=
  let books_data := (fetch_books fetcher fuel).1
  if books_data.isEmpty then []
  else remove_duplicates (parse_book_titles_and_dates books_data keyword)

/-- Part 1 of `main`, generalized over the keyword list and the network
capability: per-keyword processing, concatenation of the per-keyword
results (here in submission order; `as_completed` makes the real order a
permutation of this, which claim C2 addresses), global `remove_duplicates`,
and `count_books_by_period`. -/
def main_part1 (fetcher : String → Nat → PageResult) (fuel : Nat)
    (keywords : List String) : List Entry × List ((Int × Int) × Nat) :=
  let aggregated_data :=
    (keywords.map (fun kw => process_keyword (fetcher kw) fuel kw)).flatten
  let aggregated_data := remove_duplicates aggregated_data
  (aggregated_data, count_books_by_period aggregated_data)

/-! ### Concrete inputs used by the claim theorems -/

/-- A record with both fields present and an integer year. -/
def recC4 : RawRecord :=
  { title := some "T", first_publish_year := some (JValue.jint 2005) }

/-- Mock fetcher returning pages of sizes 1000, 1000, 400, then empty. -/
def mockC4 : Nat → PageResult := fun page =>
  if page = 1 then PageResult.ok (List.replicate 1000 recC4)
  else if page = 2 then PageResult.ok (List.replicate 1000 recC4)
  else if page = 3 then PageResult.ok (List.replicate 400 recC4)
  else PageResult.ok []

/-- Mock fetcher that succeeds on page 1 with 1000 records, fails on all
later pages. -/
def mockC5 : Nat → PageResult := fun page =>
  if page = 1 then PageResult.ok (List.replicate 1000 recC4) else PageResult.err

/-- The book X/2005 as tagged by keyword A. -/
def entryXA : Entry := { title := "X", year := 2005, keyword := "A" }

/-- The same book X/2005 as tagged by keyword B. -/
def entryXB : Entry := { title := "X", year := 2005, keyword := "B" }

/-- Raw record `{title: "X", first_publish_year: 2005}`. -/
def rawXA : RawRecord :=
  { title := some "X", first_publish_year := some (JValue.jint 2005) }

/-- Raw record `{title: "Y", first_publish_year: 2010}`. -/
def rawYB : RawRecord :=
  { title := some "Y", first_publish_year := some (JValue.jint 2010) }

/-- Raw record with a missing `first_publish_year`. -/
def rawNoYear : RawRecord := { title := some "X", first_publish_year := none }

/-- Mock source for the end-to-end example: keyword A yields X/2005,
keyword B yields X/2005 and Y/2010. -/
def fetcherC9 : String → Nat → PageResult := fun kw _page =>
  if kw = "A" then PageResult.ok [rawXA]
  else if kw = "B" then PageResult.ok [rawXA, rawYB]
  else PageResult.ok []

/-! ### Lemmas about `remove_duplicates` -/

theorem rdf_mem_keys (k : String × Int) (l : List Entry) :
    ∀ seen, k ∈ (remove_duplicates_from seen l).map dedupKey ↔
      k ∉ seen ∧ k ∈ l.map dedupKey := by
  induction l with
  | nil => intro seen; simp [remove_duplicates_from]
  | cons b rest ih =>
    intro seen
    rw [remove_duplicates_from]
    by_cases hb : dedupKey b ∈ seen
    · rw [if_pos hb, ih seen]
      simp only [List.map_cons, List.mem_cons]
      constructor
      · rintro ⟨h1, h2⟩
        exact ⟨h1, Or.inr h2⟩
      · rintro ⟨h1, h2 | h2⟩
        · exact absurd (h2.symm ▸ hb) h1
        · exact ⟨h1, h2⟩
    · rw [if_neg hb]
      simp only [List.map_cons, List.mem_cons]
      rw [ih (dedupKey b :: seen)]
      constructor
      · rintro (h | ⟨h1, h2⟩)
        · exact ⟨h.symm ▸ hb, Or.inl h⟩
        · exact ⟨fun hk => h1 (List.mem_cons_of_mem _ hk), Or.inr h2⟩
      · rintro ⟨h1, h2 | h2⟩
        · exact Or.inl h2
        · by_cases hkb : k = dedupKey b
          · exact Or.inl hkb
          · exact Or.inr ⟨fun hk => (List.mem_cons.mp hk).elim hkb h1, h2⟩

theorem rdf_key_not_seen {e : Entry} {l : List Entry} {seen : List (String × Int)}
    (h : e ∈ remove_duplicates_from seen l) : dedupKey e ∉ seen := by
  have hk : dedupKey e ∈ (remove_duplicates_from seen l).map dedupKey :=
    List.mem_map_of_mem dedupKey h
  exact ((rdf_mem_keys _ l seen).mp hk).1

theorem rdf_sublist (l : List Entry) :
    ∀ seen, (remove_duplicates_from seen l).Sublist l := by
  induction l with
  | nil => intro seen; simp [remove_duplicates_from]
  | cons b rest ih =>
    intro seen
    rw [remove_duplicates_from]
    split
    · exact (ih seen).cons b
    · exact (ih (dedupKey b :: seen)).cons₂ b

theorem rdf_keys_nodup (l : List Entry) :
    ∀ seen, ((remove_duplicates_from seen l).map dedupKey).Nodup := by
  induction l with
  | nil => intro seen; simp [remove_duplicates_from]
  | cons b rest ih =>
    intro seen
    rw [remove_duplicates_from]
    split
    · exact ih seen
    · simp only [List.map_cons, List.nodup_cons]
      refine ⟨fun hmem => ?_, ih (dedupKey b :: seen)⟩
      have := (rdf_mem_keys (dedupKey b) rest (dedupKey b :: seen)).mp hmem
      exact this.1 (List.mem_cons_self _ _)

theorem rdf_first_occ (l : List Entry) :
    ∀ seen, ∀ e ∈ remove_duplicates_from seen l,
      l.find? (fun b => decide (dedupKey b = dedupKey e)) = some e := by
  induction l with
  | nil => intro seen e he; simp [remove_duplicates_from] at he
  | cons b rest ih =>
    intro seen e he
    rw [remove_duplicates_from] at he
    by_cases hb : dedupKey b ∈ seen
    · rw [if_pos hb] at he
      have hne : ¬ (dedupKey b = dedupKey e) := by
        intro hEq
        exact rdf_key_not_seen he (hEq ▸ hb)
      rw [List.find?_cons_of_neg _ (by simpa using hne)]
      exact ih seen e he
    · rw [if_neg hb] at he
      rcases List.mem_cons.mp he with rfl | he'
      · rw [List.find?_cons_of_pos _ (by simp)]
      · have hnot : dedupKey e ∉ dedupKey b :: seen := rdf_key_not_seen he'
        have hne : ¬ (dedupKey b = dedupKey e) := by
          intro hEq
          exact hnot (hEq ▸ List.mem_cons_self _ _)
        rw [List.find?_cons_of_neg _ (by simpa using hne)]
        exact ih (dedupKey b :: seen) e he'

theorem rdf_of_nodup (l : List Entry) :
    ∀ seen, (l.map dedupKey).Nodup → (∀ e ∈ l, dedupKey e ∉ seen) →
      remove_duplicates_from seen l = l := by
  induction l with
  | nil => intro seen _ _; rfl
  | cons b rest ih =>
    intro seen hnd hdisj
    have hnd' : (∀ x ∈ rest, ¬ dedupKey x = dedupKey b) ∧ (rest.map dedupKey).Nodup := by
      simpa using hnd
    rw [remove_duplicates_from, if_neg (hdisj b (List.mem_cons_self _ _))]
    congr 1
    apply ih
    · exact hnd'.2
    · intro e he hmem
      rcases List.mem_cons.mp hmem with hEq | hseen
      · exact hnd'.1 e he hEq
      · exact hdisj e (List.mem_cons_of_mem _ he) hseen

/-! ### Lemmas about `parse_book_titles_and_dates` -/

theorem parse_eq_filter_map (data : List RawRecord) (kw : String) :
    parse_book_titles_and_dates data kw =
      (data.filter hasIntYear).map (entryOf kw) := by
  induction data with
  | nil => rfl
  | cons book rest ih =>
    cases h : book.first_publish_year.getD (JValue.jstr "N/A") with
    | jint n =>
      simp [parse_book_titles_and_dates, List.filter_cons, hasIntYear,
        entryOf, intYearOf, h, ih]
    | jstr s =>
      simp [parse_book_titles_and_dates, List.filter_cons, hasIntYear, h, ih]

theorem parse_append (l1 l2 : List RawRecord) (kw : String) :
    parse_book_titles_and_dates (l1 ++ l2) kw =
      parse_book_titles_and_dates l1 kw ++ parse_book_titles_and_dates l2 kw := by
  rw [parse_eq_filter_map, parse_eq_filter_map, parse_eq_filter_map,
    List.filter_append, List.map_append]

theorem hasIntYear_spec {r : RawRecord} (h : hasIntYear r = true) :
    r.first_publish_year = some (JValue.jint (intYearOf r)) := by
  cases hr : r.first_publish_year with
  | none => simp [hasIntYear, hr] at h
  | some v =>
    cases v with
    | jint n => simp [intYearOf, hr]
    | jstr s => simp [hasIntYear, hr] at h

/-! ### Lemmas about period bucketing -/

theorem find_period_mem {year : Int} {periods : List (Int × Int)} {p : Int × Int}
    (h : find_period year periods = some p) : p ∈ periods := by
  induction periods with
  | nil => simp [find_period] at h
  | cons q rest ih =>
    obtain ⟨s, e⟩ := q
    rw [find_period] at h
    by_cases hin : s ≤ year ∧ year ≤ e
    · rw [if_pos hin] at h
      injection h with h
      exact h ▸ List.mem_cons_self _ _
    · rw [if_neg hin] at h
      exact List.mem_cons_of_mem _ (ih h)

theorem find_period_isSome_iff (year : Int) (periods : List (Int × Int)) :
    (find_period year periods).isSome = true ↔
      ∃ p ∈ periods, p.1 ≤ year ∧ year ≤ p.2 := by
  induction periods with
  | nil => simp [find_period]
  | cons q rest ih =>
    obtain ⟨s, e⟩ := q
    rw [find_period]
    by_cases hin : s ≤ year ∧ year ≤ e
    · rw [if_pos hin]
      simp only [Option.isSome_some, true_iff]
      exact ⟨(s, e), List.mem_cons_self _ _, hin.1, hin.2⟩
    · rw [if_neg hin, ih]
      constructor
      · rintro ⟨p, hp, h1, h2⟩
        exact ⟨p, List.mem_cons_of_mem _ hp, h1, h2⟩
      · rintro ⟨p, hp, h1, h2⟩
        rcases List.mem_cons.mp hp with rfl | hp'
        · exact absurd ⟨h1, h2⟩ hin
        · exact ⟨p, hp', h1, h2⟩

theorem bump_period_keys (p : Int × Int) (counts : List ((Int × Int) × Nat)) :
    (bump_period p counts).map (fun pc => pc.1) = counts.map (fun pc => pc.1) := by
  unfold bump_period
  rw [List.map_map]
  apply List.map_congr_left
  intro pc _
  by_cases hc : pc.1 = p <;> simp [hc]

theorem bump_period_not_mem {p : Int × Int} {counts : List ((Int × Int) × Nat)}
    (h : p ∉ counts.map (fun pc => pc.1)) : bump_period p counts = counts := by
  unfold bump_period
  conv_rhs => rw [← List.map_id counts]
  apply List.map_congr_left
  intro pc hpc
  have hne : pc.1 ≠ p := fun hEq => h (hEq ▸ List.mem_map_of_mem _ hpc)
  simp [hne]

theorem sumCounts_cons (x : (Int × Int) × Nat) (l : List ((Int × Int) × Nat)) :
    sumCounts (x :: l) = x.2 + sumCounts l := by
  simp [sumCounts]

theorem bump_period_sum {p : Int × Int} :
    ∀ {counts : List ((Int × Int) × Nat)},
      (counts.map (fun pc => pc.1)).Nodup → p ∈ counts.map (fun pc => pc.1) →
      sumCounts (bump_period p counts) = sumCounts counts + 1 := by
  intro counts
  induction counts with
  | nil => intro _ hmem; simp at hmem
  | cons c rest ih =>
    intro hnd hmem
    simp only [List.map_cons, List.nodup_cons] at hnd
    simp only [List.map_cons, List.mem_cons] at hmem
    have hbump : bump_period p (c :: rest) =
        (if c.1 = p then (c.1, c.2 + 1) else c) :: bump_period p rest := rfl
    by_cases hc : c.1 = p
    · have hrest : p ∉ rest.map (fun pc => pc.1) := hc ▸ hnd.1
      rw [hbump, if_pos hc, bump_period_not_mem hrest, sumCounts_cons, sumCounts_cons]
      omega
    · have hp' : p ∈ rest.map (fun pc => pc.1) := by
        rcases hmem with h | h
        · exact absurd h.symm hc
        · exact h
      rw [hbump, if_neg hc, sumCounts_cons, sumCounts_cons, ih hnd.2 hp']
      omega

theorem count_fold_sum (periods : List (Int × Int)) (hnd : periods.Nodup) :
    ∀ (books : List Entry) (counts : List ((Int × Int) × Nat)),
      counts.map (fun pc => pc.1) = periods →
      sumCounts (books.foldl (fun counts book =>
          match find_period book.year periods with
          | some p => bump_period p counts
          | none => counts) counts) =
        sumCounts counts +
          (books.filter (fun b => (find_period b.year periods).isSome)).length := by
  intro books
  induction books with
  | nil => intro counts _; simp
  | cons b rest ih =>
    intro counts hkeys
    rw [List.foldl_cons]
    cases hfp : find_period b.year periods with
    | none =>
      simp only [hfp]
      rw [ih counts hkeys]
      simp [List.filter_cons, hfp]
    | some p =>
      simp only [hfp]
      have hkeys' : (bump_period p counts).map (fun pc => pc.1) = periods := by
        rw [bump_period_keys, hkeys]
      rw [ih (bump_period p counts) hkeys',
        bump_period_sum (hkeys ▸ hnd) (hkeys ▸ find_period_mem hfp)]
      simp only [List.filter_cons, hfp, Option.isSome_some]
      simp
      omega

/-! ### Lemmas about the pagination loop -/

theorem fetch_calls_pos (fetcher : Nat → PageResult) (fuel page : Nat) :
    1 ≤ (fetch_books_from fetcher (fuel + 1) page).2 := by
  rw [fetch_books_from]
  cases hfp : fetcher page with
  | err => exact Nat.le_refl 1
  | ok docs =>
    dsimp only
    split
    · exact Nat.le_refl 1
    · split
      · exact Nat.le_refl 1
      · exact Nat.le_add_left 1 _

/-! ### Claim theorems -/

/-- C1, counterexample: a raw record whose `first_publish_year` is missing
produces no Entry at all — the parse output and hence the deduplicated
table for this input are empty, contradicting the claim that the Entry is
still created and retained in the AggregatedTable. -/
theorem C1_counterexample :
    parse_book_titles_and_dates [rawNoYear] "A" = [] ∧
    remove_duplicates (parse_book_titles_and_dates [rawNoYear] "A") = [] := by
  constructor <;> rfl

/-- C1, amended: a raw record whose `first_publish_year` is missing or not
an integer is dropped by `parse_book_titles_and_dates`: no Entry is created
for it, so it is absent from the AggregatedTable (it takes no part in
dedup) and contributes to no TimePeriod bucket. -/
theorem C1_no_year_dropped (l1 l2 : List RawRecord) (r : RawRecord) (kw : String)
    (h : hasIntYear r = false) :
    parse_book_titles_and_dates (l1 ++ r :: l2) kw =
      parse_book_titles_and_dates l1 kw ++ parse_book_titles_and_dates l2 kw := by
  rw [parse_append, parse_eq_filter_map (r :: l2),
    List.filter_cons_of_neg (by simp [h]), ← parse_eq_filter_map]

/-- Witness for C1's amended theorem at a concrete input. -/
theorem C1_no_year_dropped_witness :
    hasIntYear rawNoYear = false ∧
    parse_book_titles_and_dates ([rawYB] ++ rawNoYear :: [rawXA]) "A" =
      parse_book_titles_and_dates [rawYB] "A" ++
        parse_book_titles_and_dates [rawXA] "A" :=
  ⟨rfl, C1_no_year_dropped [rawYB] [rawXA] rawNoYear "A" rfl⟩

/-- C2, counterexample: the same book fetched under two keywords keeps a
different keyword tag depending on merge order, so the two aggregated
tables are not equal even as multisets. -/
theorem C2_counterexample :
    ¬ List.Perm (remove_duplicates [entryXA, entryXB])
        (remove_duplicates [entryXB, entryXA]) := by
  intro h
  have h1 : remove_duplicates [entryXA, entryXB] = [entryXA] := rfl
  have h2 : remove_duplicates [entryXB, entryXA] = [entryXB] := rfl
  rw [h1, h2] at h
  exact absurd (List.perm_singleton.mp h) (by decide)

/-- C2, amended: aggregation is only key-deterministic: for any two merge
orders of the same entries (permutations), the deduplicated tables carry
exactly the same set of `(title, year)` keys, though the keyword tag (and
order) of an entry may differ. -/
theorem C2_keys_invariant (l1 l2 : List Entry) (h : List.Perm l1 l2)
    (k : String × Int) :
    k ∈ (remove_duplicates l1).map dedupKey ↔
      k ∈ (remove_duplicates l2).map dedupKey := by
  rw [remove_duplicates, remove_duplicates, rdf_mem_keys k l1 [],
    rdf_mem_keys k l2 []]
  simp only [List.not_mem_nil, not_false_iff, true_and]
  exact (h.map dedupKey).mem_iff

/-- Witness for C2's amended theorem at a concrete permutation. -/
theorem C2_keys_invariant_witness :
    List.Perm [entryXA, entryXB] [entryXB, entryXA] ∧
    (("X", (2005 : Int)) ∈ (remove_duplicates [entryXA, entryXB]).map dedupKey ↔
      ("X", (2005 : Int)) ∈ (remove_duplicates [entryXB, entryXA]).map dedupKey) :=
  ⟨List.Perm.swap entryXB entryXA [],
    C2_keys_invariant [entryXA, entryXB] [entryXB, entryXA]
      (List.Perm.swap entryXB entryXA []) ("X", (2005 : Int))⟩

/-- C3: the globally deduplicated table has pairwise distinct
`(title, year)` keys, is an order-preserving subsequence of its input, and
every retained entry is the first entry of the input bearing its key. -/
theorem C3_global_dedup (l : List Entry) :
    ((remove_duplicates l).map dedupKey).Nodup ∧
    (remove_duplicates l).Sublist l ∧
    ∀ e ∈ remove_duplicates l,
      l.find? (fun b => decide (dedupKey b = dedupKey e)) = some e :=
  ⟨rdf_keys_nodup l [], rdf_sublist l [], fun e he => rdf_first_occ l [] e he⟩

/-- Witness for C3 at a concrete input: deduplicating `[XA, XB]`. -/
theorem C3_global_dedup_witness :
    ((remove_duplicates [entryXA, entryXB]).map dedupKey).Nodup ∧
    (remove_duplicates [entryXA, entryXB]).Sublist [entryXA, entryXB] ∧
    ∀ e ∈ remove_duplicates [entryXA, entryXB],
      [entryXA, entryXB].find? (fun b => decide (dedupKey b = dedupKey e)) = some e :=
  C3_global_dedup [entryXA, entryXB]

/-- C7: feeding the aggregated (already deduplicated) table back through
deduplication returns it unchanged. -/
theorem C7_dedup_idempotent (l : List Entry) :
    remove_duplicates (remove_duplicates l) = remove_duplicates l :=
  rdf_of_nodup (remove_duplicates l) [] (rdf_keys_nodup l [])
    (fun e _ hmem => (List.not_mem_nil (dedupKey e)) hmem)

/-- C10: every parsed entry carries the keyword argument as its tag; the
parse output is exactly the order-preserving subsequence of records with an
integer `first_publish_year`, each mapped to the entry whose title is the
record's title (or the sentinel `"N/A"` when absent) and whose year is that
integer. -/
theorem C10_parse_invariants (data : List RawRecord) (kw : String) :
    parse_book_titles_and_dates data kw = (data.filter hasIntYear).map (entryOf kw) ∧
    (∀ e ∈ parse_book_titles_and_dates data kw, e.keyword = kw) ∧
    (∀ e ∈ parse_book_titles_and_dates data kw,
      ∃ r ∈ data, e.title = r.title.getD "N/A" ∧
        r.first_publish_year = some (JValue.jint e.year)) := by
  refine ⟨parse_eq_filter_map data kw, ?_, ?_⟩
  · intro e he
    rw [parse_eq_filter_map data kw] at he
    obtain ⟨r, _, hr⟩ := List.mem_map.mp he
    rw [← hr]
    rfl
  · intro e he
    rw [parse_eq_filter_map data kw] at he
    obtain ⟨r, hrf, hr⟩ := List.mem_map.mp he
    obtain ⟨hrd, hint⟩ := List.mem_filter.mp hrf
    refine ⟨r, hrd, ?_, ?_⟩
    · rw [← hr]; rfl
    · rw [← hr]
      exact hasIntYear_spec hint

/-- Witness for C10 at a concrete input: parsing `[X/2005, missing-year]`. -/
theorem C10_parse_invariants_witness :
    parse_book_titles_and_dates [rawXA, rawNoYear] "A" =
      ([rawXA, rawNoYear].filter hasIntYear).map (entryOf "A") ∧
    (∀ e ∈ parse_book_titles_and_dates [rawXA, rawNoYear] "A", e.keyword = "A") ∧
    (∀ e ∈ parse_book_titles_and_dates [rawXA, rawNoYear] "A",
      ∃ r ∈ [rawXA, rawNoYear], e.title = r.title.getD "N/A" ∧
        r.first_publish_year = some (JValue.jint e.year)) :=
  C10_parse_invariants [rawXA, rawNoYear] "A"

set_option maxRecDepth 100000 in
/-- C4: under the API contract that a page never exceeds the page size
(1000), the loop issues a further fetch call from a page iff that page
returned exactly 1000 records; and on the concrete mock returning pages of
sizes 1000, 1000, 400, 0 the loop issues exactly 3 calls and accumulates
all 2400 records. -/
theorem C4_pagination (fetcher : Nat → PageResult) (fuel page : Nat)
    (hbound : ∀ p docs, fetcher p = PageResult.ok docs → docs.length ≤ 1000) :
    (2 ≤ (fetch_books_from fetcher (fuel + 2) page).2 ↔
      ∃ docs, fetcher page = PageResult.ok docs ∧ docs.length = 1000) ∧
    (fetch_books mockC4 5).1 =
      List.replicate 1000 recC4 ++
        (List.replicate 1000 recC4 ++ List.replicate 400 recC4) ∧
    (fetch_books mockC4 5).2 = 3 := by
  refine ⟨?_, rfl, rfl⟩
  rw [show fuel + 2 = (fuel + 1) + 1 from rfl, fetch_books_from]
  cases hfp : fetcher page with
  | err => simp
  | ok docs =>
    by_cases hempty : docs.isEmpty
    · have hnil : docs = [] := by simpa [List.isEmpty_iff] using hempty
      subst hnil
      simp
    · by_cases hlt : docs.length < 1000
      · simp only [hempty, hlt]
        simp only [Bool.false_eq_true, if_false, if_true, PageResult.ok.injEq]
        constructor
        · intro h; exact absurd h (by simp)
        · rintro ⟨docs', hd, hlen⟩
          subst hd
          omega
      · have hlen : docs.length = 1000 :=
          Nat.le_antisymm (hbound page docs hfp) (Nat.le_of_not_lt hlt)
        simp only [hempty, hlt]
        simp only [Bool.false_eq_true, if_false, PageResult.ok.injEq]
        have hpos := fetch_calls_pos fetcher fuel (page + 1)
        constructor
        · intro _; exact ⟨docs, rfl, hlen⟩
        · intro _
          omega

/-- Witness for C4: the mock fetcher satisfies the page-size bound, and the
iff instance at page 1 with no extra fuel. -/
theorem C4_pagination_witness :
    (∀ p docs, mockC4 p = PageResult.ok docs → docs.length ≤ 1000) ∧
    (2 ≤ (fetch_books_from mockC4 (0 + 2) 1).2 ↔
      ∃ docs, mockC4 1 = PageResult.ok docs ∧ docs.length = 1000) := by
  have hbound : ∀ p docs, mockC4 p = PageResult.ok docs → docs.length ≤ 1000 := by
    intro p docs h
    unfold mockC4 at h
    split_ifs at h <;> cases h <;>
      simp only [List.length_replicate, List.length_nil] <;> omega
  exact ⟨hbound, (C4_pagination mockC4 0 1 hbound).1⟩

/-- C5: if page 1 returns 1000 records and page 2 fails, `process_keyword`
returns the deduplicated parse of the first page — a normal value, not an
error. -/
theorem C5_truncation (fetcher : Nat → PageResult) (docs1 : List RawRecord)
    (kw : String) (fuel : Nat)
    (h1 : fetcher 1 = PageResult.ok docs1) (hlen : docs1.length = 1000)
    (h2 : fetcher 2 = PageResult.err) :
    process_keyword fetcher (fuel + 2) kw =
      remove_duplicates (parse_book_titles_and_dates docs1 kw) := by
  have hne : docs1 ≠ [] := by
    intro h
    rw [h] at hlen
    simp at hlen
  have hfetch : (fetch_books fetcher (fuel + 2)).1 = docs1 := by
    rw [fetch_books, show fuel + 2 = (fuel + 1) + 1 from rfl, fetch_books_from, h1]
    have hempty : docs1.isEmpty = false := by
      simpa [List.isEmpty_iff] using hne
    have hlt : ¬ (docs1.length < 1000) := by omega
    simp only [hempty, hlt, Bool.false_eq_true, if_false]
    rw [fetch_books_from]
    norm_num [h2]
  simp only [process_keyword, hfetch]
  rw [if_neg (by simpa [List.isEmpty_iff] using hne)]

/-- Witness for C5 on the mock fetcher that fails from page 2 on. -/
theorem C5_truncation_witness :
    mockC5 1 = PageResult.ok (List.replicate 1000 recC4) ∧
    (List.replicate 1000 recC4).length = 1000 ∧
    mockC5 2 = PageResult.err ∧
    process_keyword mockC5 (0 + 2) "A" =
      remove_duplicates (parse_book_titles_and_dates (List.replicate 1000 recC4) "A") :=
  ⟨rfl, by rw [List.length_replicate], rfl,
    C5_truncation mockC5 (List.replicate 1000 recC4) "A" 0 rfl
      (by rw [List.length_replicate]) rfl⟩

/-- C6: the bucketing total equals the number of entries whose year falls
in some configured period (each entry increments at most one bucket — the
first matching period in ascending list order, which is what `find_period`
computes); hence it is at most the number of entries, with equality iff
every year lies within some configured period.  (Every Entry the parser
produces carries an integer year, so "entries with a valid year" is all of
them.) -/
theorem C6_bucketing_total (books : List Entry) :
    sumCounts (count_books_by_period books) =
      (books.filter (fun b => (find_period b.year TIME_PERIODS).isSome)).length ∧
    sumCounts (count_books_by_period books) ≤ books.length ∧
    (sumCounts (count_books_by_period books) = books.length ↔
      ∀ b ∈ books, ∃ p ∈ TIME_PERIODS, p.1 ≤ b.year ∧ b.year ≤ p.2) := by
  have hnd : TIME_PERIODS.Nodup := by decide
  have hkeys : (TIME_PERIODS.map (fun p => (p, 0))).map
      (fun pc : (Int × Int) × Nat => pc.1) = TIME_PERIODS := by
    rw [List.map_map]
    exact List.map_id' TIME_PERIODS
  have hsum0 : sumCounts (TIME_PERIODS.map (fun p => (p, 0))) = 0 := by decide
  have hmain : sumCounts (count_books_by_period books) =
      (books.filter (fun b => (find_period b.year TIME_PERIODS).isSome)).length := by
    rw [count_books_by_period, count_books_by_period_with,
      count_fold_sum TIME_PERIODS hnd books _ hkeys, hsum0, Nat.zero_add]
  refine ⟨hmain, ?_, ?_⟩
  · rw [hmain]
    exact List.length_filter_le _ _
  · rw [hmain]
    constructor
    · intro h b hb
      have hself := (List.filter_sublist books
        (p := fun b => (find_period b.year TIME_PERIODS).isSome)).eq_of_length h
      have hall := List.filter_eq_self.mp hself
      exact (find_period_isSome_iff b.year TIME_PERIODS).mp (hall b hb)
    · intro h
      rw [List.filter_eq_self.mpr
        (fun b hb => (find_period_isSome_iff b.year TIME_PERIODS).mpr (h b hb))]

/-- Witness for C6 at a concrete table: one entry inside the configured
periods (2005), one outside (1800). -/
theorem C6_bucketing_total_witness :
    sumCounts (count_books_by_period [entryXA,
        { title := "Old", year := 1800, keyword := "A" }]) =
      ([entryXA, { title := "Old", year := 1800, keyword := "A" }].filter
        (fun b => (find_period b.year TIME_PERIODS).isSome)).length ∧
    sumCounts (count_books_by_period [entryXA,
        { title := "Old", year := 1800, keyword := "A" }]) ≤
      [entryXA, { title := "Old", year := 1800, keyword := "A" }].length ∧
    (sumCounts (count_books_by_period [entryXA,
        { title := "Old", year := 1800, keyword := "A" }]) =
        [entryXA, { title := "Old", year := 1800, keyword := "A" }].length ↔
      ∀ b ∈ [entryXA, { title := "Old", year := 1800, keyword := "A" }],
        ∃ p ∈ TIME_PERIODS, p.1 ≤ b.year ∧ b.year ≤ p.2) :=
  C6_bucketing_total [entryXA, { title := "Old", year := 1800, keyword := "A" }]

/-- C8, counterexample: the code performs no configuration validation.
With an empty keyword list the run completes normally with an empty table
and all-zero counts instead of failing with a ConfigurationError, and an
overlapping period table is accepted as-is (the first matching period in
list order wins). -/
theorem C8_counterexample :
    main_part1 (fun _ _ => PageResult.err) 5 [] =
      ([], TIME_PERIODS.map (fun p => (p, 0))) ∧
    count_books_by_period_with [((2000 : Int), (2010 : Int)), (2005, 2015)]
        [entryXA] =
      [((2000, 2010), 1), ((2005, 2015), 0)] := by
  constructor <;> rfl

/-- C8, amended: no configuration validation exists; for every network
capability, running the pipeline on an empty keyword list succeeds and
produces an empty AggregatedTable with all-zero period counts (no fetch is
issued since there is no keyword to process). -/
theorem C8_no_validation (fetcher : String → Nat → PageResult) (fuel : Nat) :
    main_part1 fetcher fuel [] = ([], TIME_PERIODS.map (fun p => (p, 0))) :=
  rfl

/-- C9: the end-to-end example.  Keywords A then B, A's source yields
X/2005, B's yields X/2005 and Y/2010: the aggregated table is exactly
[X/2005 (tagged A), Y/2010 (tagged B)], and bucketing it with the partition
[(2004,2005), (2006,2011)] counts one book in each period. -/
theorem C9_end_to_end :
    (main_part1 fetcherC9 5 ["A", "B"]).1 =
      [entryXA, { title := "Y", year := 2010, keyword := "B" }] ∧
    count_books_by_period_with [((2004 : Int), (2005 : Int)), (2006, 2011)]
        (main_part1 fetcherC9 5 ["A", "B"]).1 =
      [((2004, 2005), 1), ((2006, 2011), 1)] := by
  constructor <;> rfl
